import Mathlib

/-!
Verification of the validation/alias dispatch core of `apischema`
(`apischema/validation/validators.py`, `apischema/objects/getters.py`).

The Python code is shallowly embedded: Python dicts become association
lists, sets become lists used up to membership, exceptions become
explicit outcome constructors, and the stateful engine loop becomes a
recursive function on the remaining validator list.

Collaborator modules that are not part of the excerpted sources
(`apischema.validation.errors`, `apischema.validation.dependencies`,
the field-metadata visitor behind `object_fields`, and the
mro/model-origin resolvers) are modelled from the specification's
description of their interfaces, or abstracted as parameters.

The engine loop is embedded twice.  `validateLoop` prunes the
remainder eagerly and cumulatively at each `Discard` — the semantics
the specification describes.  `validateLoopLateBind` embeds what the
program actually does: the filter generator expressions of
validators.py:160-163 late-bind the shared local `discarded`, so each
pending validator is tested, when the iteration reaches it, against
the latest discarded field set only, and validators skipped by a pull
are consumed for good.  The two agree until a second `Discard` fires.
-/

/-- Modelled from the spec: `ValidationError` (from
`apischema.validation.errors`, not in the excerpted sources) carries
zero-or-more flat messages plus a mapping from field alias to a nested
`ValidationError`.  The mapping is embedded as an association list in
insertion order. -/
inductive VError where
  | mk (messages : List String) (children : List (String × VError))
deriving Repr

def VError.messages : VError → List String
  | .mk m _ => m

def VError.children : VError → List (String × VError)
  | .mk _ c => c

/-- An error with no messages and no children. -/
def VError.isEmptyErr (e : VError) : Bool :=
  e.messages.isEmpty && e.children.isEmpty

/-- Modelled from the spec: `merge_errors` deep merge — concatenates flat
messages and deep-merges the nested mappings, recursively merging
same-keyed children and concatenating otherwise. -/
def VError.merge : VError → VError → VError
  | .mk m1 c1, .mk m2 c2 =>
    .mk (m1 ++ m2)
      ((c1.attach.map (fun p =>
          match c2.lookup p.1.1 with
          | some e2 => (p.1.1, VError.merge p.1.2 e2)
          | none => p.1))
        ++ c2.filter (fun q => (c1.lookup q.1).isNone))
termination_by e1 _e2 => sizeOf e1
decreasing_by
  have h1 : sizeOf p.1 < sizeOf c1 := List.sizeOf_lt_of_mem p.2
  simp only [VError.mk.sizeOf_spec]
  have h2 : sizeOf p.1.2 < sizeOf p.1 := by
    obtain ⟨a, b⟩ := p.1
    simp only [Prod.mk.sizeOf_spec]
    omega
  omega

/-- `merge_errors` with a possibly-absent accumulated error (the engine
keeps `error: Optional[ValidationError]`). -/
def mergeOpt (acc : Option VError) (e : VError) : VError :=
  match acc with
  | none => e
  | some a => a.merge e

/-- Outcome of calling a (wrapped) check function: normal return, a
raised `ValidationError`, a raised `Discard` signal, a raised
`NonTrivialDependency`, a raised `AssertionError`, or any other raised
exception (represented by its message). -/
inductive Outcome where
  | ok
  | vError (e : VError)
  | discard (fields : List String) (e : VError)
  | nonTrivial
  | assertFail
  | otherExc (msg : String)
deriving Repr

/-- Keyword arguments: a Python dict embedded as an association list. -/
abbrev Kwargs := List (String × String)

/-- The kind of a parameter in a Python function signature
(`inspect.Parameter.kind`). -/
inductive ParamKind where
  | positionalOrKeyword
  | varPositional
  | varKeyword
  | keywordOnly
deriving Repr, DecidableEq

structure PyParam where
  name : String
  kind : ParamKind
deriving Repr, DecidableEq

/-- A user check function as the embedding sees it: its signature (or
`none` when `inspect.signature` raises `ValueError`), whether it is a
generator function, its behaviour when called, and — for generator
functions — the error messages it yields. -/
structure PyFunc (T : Type) where
  sig : Option (List PyParam)
  isGen : Bool
  call : T → Kwargs → Outcome
  yields : T → Kwargs → List String

/-- A registered validator as used by the engine: declared parameter
names (all but the first), computed dependency set, target field,
discard set (after defaulting), and the fully wrapped check. -/
structure Validator (T : Type) where
  func : PyFunc T
  field : Option String
  discard : Option (List String)
  params : List String
  dependencies : List String
  validate : T → Kwargs → Outcome

/-- Set-equality test between a validator's `params` set and the key
view of a kwargs dict (`validator.params != kwargs.keys()`). -/
def sameKeys (ps : List String) (kw : Kwargs) : Bool :=
  ps.all (fun k => kw.any (fun p => p.1 == k)) &&
    kw.all (fun p => ps.contains p.1)

/-- `{k: kwargs[k] for k in validator.params}` — the filtered kwargs
dict built by iterating `params` and looking each name up in `kwargs`. -/
def filteredKwargs (ps : List String) (kw : Kwargs) : Kwargs :=
  ps.filterMap (fun k => (kw.lookup k).map (fun v => (k, v)))

/-- One dispatch of the engine loop body (validators.py:149-155): if
kwargs were supplied and `params` differs from `kwargs.keys()`, assert
every param is present and call with the filtered dict; otherwise call
with all of kwargs. A failing assertion surfaces as `AssertionError`. -/
def callValidator {T : Type} (v : Validator T) (obj : T) (kw : Kwargs) : Outcome :=
  if !kw.isEmpty && !sameKeys v.params kw then
    if v.params.all (fun k => kw.any (fun p => p.1 == k)) then
      v.validate obj (filteredKwargs v.params kw)
    else
      .assertFail
  else
    v.validate obj kw

/-- Result of the `validate` engine: the instance returned unchanged, a
raised merged `ValidationError`, a propagated `NonTrivialDependency`
with the offending validator attached, or a propagated
`AssertionError`. -/
inductive EngineResult (T : Type) where
  | ok (obj : T)
  | raised (e : VError)
  | nonTrivial (v : Validator T)
  | assertFail

/-- The engine loop of `validate` (validators.py:144-173) with the
cumulative pruning the specification describes: on `Discard`, merge the
carried error and continue with the remaining validators filtered to
drop those whose dependencies intersect the discarded field set, the
filter persisting for the rest of the run; surfaced errors are merged;
`NonTrivialDependency` (with the validator attached) and
`AssertionError` propagate; any other exception is downgraded to a
single-message error.  NOTE: the program itself deviates from this on a
second `Discard` — its filter generators late-bind the shared local
`discarded` — see `validateLoopLateBind` below for the faithful
embedding; the two agree until a second `Discard` fires. -/
def validateLoop {T : Type} (obj : T) (kw : Kwargs) :
    List (Validator T) → Option VError → EngineResult T
  | [], err =>
    match err with
    | none => .ok obj
    | some e => .raised e
  | v :: rest, err =>
    match callValidator v obj kw with
    | .ok => validateLoop obj kw rest err
    | .vError e => validateLoop obj kw rest (some (mergeOpt err e))
    | .discard fields e =>
      validateLoop obj kw
        (rest.filter (fun w => !fields.any (fun f => w.dependencies.contains f)))
        (some (mergeOpt err e))
    | .nonTrivial => .nonTrivial v
    | .assertFail => .assertFail
    | .otherExc msg => validateLoop obj kw rest (some (mergeOpt err (VError.mk [msg] [])))
termination_by vs _err => vs.length
decreasing_by
  · simp
  · simp
  · exact Nat.lt_succ_of_le (List.length_filter_le _ _)
  · simp

/-- `validate(__obj, __validators, **kwargs)` with an explicit validator
sequence (validators.py:137-176). -/
def validateEngine {T : Type} (obj : T) (vs : List (Validator T)) (kw : Kwargs) :
    EngineResult T :=
  validateLoop obj kw vs none

/-- Whether the current filter layers drop a validator: `discarded &
v.dependencies` is non-empty (validators.py:162).  `ds = none` models
the iteration before any `Discard`, when no filter generator exists. -/
def discardedHits {T : Type} (ds : Option (List String)) (v : Validator T) : Bool :=
  match ds with
  | none => false
  | some fields => fields.any (fun f => v.dependencies.contains f)

/-- Faithful embedding of the `validate` loop (validators.py:144-173)
including the late binding of `discarded` by the filter generator
expressions (validators.py:160-163, PEP 289): every filter layer reads
the same local, so a pending validator is tested, when the iteration
reaches it, against the latest discarded field set only; a validator
skipped by a pull is consumed permanently even if `discarded` changes
afterwards.  The walk visits each remaining validator once, in order,
skipping it when the current set hits its dependencies and executing
it otherwise; an executed `Discard` replaces the current set. -/
def validateLoopLateBind {T : Type} (obj : T) (kw : Kwargs) :
    List (Validator T) → Option (List String) → Option VError → EngineResult T
  | [], _, err =>
    match err with
    | none => .ok obj
    | some e => .raised e
  | v :: rest, ds, err =>
    if discardedHits ds v then
      validateLoopLateBind obj kw rest ds err
    else
      match callValidator v obj kw with
      | .ok => validateLoopLateBind obj kw rest ds err
      | .vError e => validateLoopLateBind obj kw rest ds (some (mergeOpt err e))
      | .discard fields e =>
        validateLoopLateBind obj kw rest (some fields) (some (mergeOpt err e))
      | .nonTrivial => .nonTrivial v
      | .assertFail => .assertFail
      | .otherExc msg =>
        validateLoopLateBind obj kw rest ds (some (mergeOpt err (VError.mk [msg] [])))

/-- Modelled from the spec: `yield_to_raise` (from
`apischema.validation.errors`, not in the excerpted sources) wraps a
generator check so that every yielded value is converted into one
collected error: the yielded messages are raised together as one
`ValidationError`, or the call returns normally when nothing was
yielded. -/
def yieldToRaise {T : Type} (yields : T → Kwargs → List String) (obj : T) (kw : Kwargs) :
    Outcome :=
  match yields obj kw with
  | [] => .ok
  | msgs => .vError (VError.mk msgs [])

/-- The target-field re-keying wrapper (validators.py:88-101), as a pure
function of the owner's field-to-alias metadata: a surfaced
`ValidationError` becomes a new error whose sole child maps the field's
public alias to the original error.  A failed alias lookup (`KeyError`
from `object_fields(self.owner)[...]`) escapes as a
non-`ValidationError` exception.  Other outcomes pass through. -/
def fieldLayer {T : Type} (aliasOf : String → Option String) (fn : String)
    (inner : T → Kwargs → Outcome) (obj : T) (kw : Kwargs) : Outcome :=
  match inner obj kw with
  | .vError err =>
    match aliasOf fn with
    | some a => .vError (VError.mk [] [(a, err)])
    | none => .otherExc "KeyError"
  | r => r

/-- The stateful form of the target-field wrapper, with the `nonlocal
alias` cache threaded explicitly (validators.py:90-101): the alias is
looked up only on the first surfaced `ValidationError` and cached. -/
def fieldValidateStep {T : Type} (aliasOf : String → Option String) (fn : String)
    (inner : T → Kwargs → Outcome) (cache : Option String) (obj : T) (kw : Kwargs) :
    Outcome × Option String :=
  match inner obj kw with
  | .vError err =>
    match cache with
    | some a => (.vError (VError.mk [] [(a, err)]), some a)
    | none =>
      match aliasOf fn with
      | some a => (.vError (VError.mk [] [(a, err)]), some a)
      | none => (.otherExc "KeyError", none)
  | r => (r, cache)

/-- The discard wrapper (validators.py:103-114): a surfaced
`ValidationError` is re-raised as a `Discard` signal carrying the
resolved discarded field names and the original error.  Other outcomes
pass through. -/
def discardLayer {T : Type} (ds : List String) (inner : T → Kwargs → Outcome)
    (obj : T) (kw : Kwargs) : Outcome :=
  match inner obj kw with
  | .vError err => .discard ds err
  | r => r

/-- The inner wrapped check of `Validator.__init__`: the possibly
generator-converted function, then — when a target field is set — the
field re-keying layer. -/
def builtInner {T : Type} (f : PyFunc T) (field : Option String)
    (aliasOf : String → Option String) : T → Kwargs → Outcome :=
  match field with
  | some fn => fieldLayer aliasOf fn (if f.isGen then yieldToRaise f.yields else f.call)
  | none => (if f.isGen then yieldToRaise f.yields else f.call)

/-- The full wrapped check of `Validator.__init__`: the inner wrapped
check, then — when `self.discard` is truthy (a nonempty collection) —
the discard conversion layer outermost. -/
def builtPipeline {T : Type} (f : PyFunc T) (field : Option String)
    (selfDiscard : Option (List String)) (aliasOf : String → Option String) :
    T → Kwargs → Outcome :=
  match selfDiscard with
  | some ds =>
    if ds.isEmpty then builtInner f field aliasOf
    else discardLayer ds (builtInner f field aliasOf)
  | none => builtInner f field aliasOf

/-- `Validator.__init__` (validators.py:57-117).  The owner's
field-to-alias metadata is passed as `aliasOf` (in Python the wrapper
reads `self.owner` lazily at call time; the model supplies the same
mapping at construction).  Target fields and discard entries are
embedded by their declared names (`get_field_name`).  Returns the
`TypeError` message on a rejected signature. -/
def mkValidator {T : Type} (f : PyFunc T) (field : Option String)
    (discard : Option (List String)) (aliasOf : String → Option String) :
    Except String (Validator T) :=
  let selfDiscard : Option (List String) :=
    if field.isSome && discard.isNone then some field.toList else discard
  let paramsRes : Except String (List String) :=
    match f.sig with
    | none => .ok []
    | some ps =>
      if ps.isEmpty then
        .error "Validator must have at least one parameter"
      else if ps.any (fun p => p.kind == .varKeyword) then
        .error "Validator cannot have variadic keyword parameter"
      else if ps.any (fun p => p.kind == .varPositional) then
        .error "Validator cannot have variadic positional parameter"
      else
        .ok ((ps.drop 1).map (fun p => p.name))
  match paramsRes with
  | .error msg => .error msg
  | .ok params =>
    .ok { func := f, field := field, discard := selfDiscard, params := params,
          dependencies := [], validate := builtPipeline f field selfDiscard aliasOf }

/-- The mutable registration state of one Validator: `owner` (absent
before the first `_register`), the `_registered` flag, and the computed
`dependencies`. -/
structure VRegState where
  owner : Option Nat
  registered : Bool
  dependencies : List String
deriving Repr, DecidableEq

/-- `Validator._register` (validators.py:124-130), with the process-wide
registry `_validators` passed as `reg` (a defaultdict from type id to
the list of registered validator ids) and `find_all_dependencies`
abstracted as `deps`.  Returns the post state, the post registry and
whether the `RuntimeError` was raised.  Note the source assigns
`self.owner = owner` before checking `self._registered`. -/
def registerValidator (deps : Nat → List String) (params : List String)
    (s : VRegState) (reg : Nat → List Nat) (vid : Nat) (owner : Nat) :
    VRegState × (Nat → List Nat) × Bool :=
  let s1 : VRegState := { s with owner := some owner }
  if s1.registered then
    (s1, reg, true)
  else
    ({ s1 with dependencies := (deps owner).union params, registered := true },
     fun t => if t = owner then reg t ++ [vid] else reg t,
     false)

/-- The type-relationship environment consumed by `get_validators`:
`mro tp` is `tp.__mro__` when `tp` has one (`none` models a non-class
type without the attribute), and `modelOrigin tp` is the model-alias
origin (`has_model_origin`/`get_model_origin`, abstracted per the
spec's `model_alias_of` interface). -/
structure TypeEnv where
  mro : Nat → Option (List Nat)
  modelOrigin : Nat → Option Nat

/-- `get_validators` (validators.py:39-48): the registry lists of the
mro entries in order (or of `tp` itself when it has no mro), then —
when `tp` has a model origin — the origin's validators computed by the
same rule.  Recursion through model origins is bounded by `fuel`
(`none` models the non-terminating cyclic case). -/
def get_validators (env : TypeEnv) (reg : Nat → List Nat) :
    Nat → Nat → Option (List Nat)
  | 0, _ => none
  | fuel + 1, tp =>
    let direct : List Nat :=
      match env.mro tp with
      | some mro => (mro.map reg).flatten
      | none => reg tp
    match env.modelOrigin tp with
    | none => some direct
    | some origin =>
      (get_validators env reg fuel origin).map (fun vs => direct ++ vs)

/-- The flat messages of the accumulated (possibly absent) error. -/
def accMessages : Option VError → List String
  | none => []
  | some e => e.messages

theorem VError.merge_messages (e1 e2 : VError) :
    (e1.merge e2).messages = e1.messages ++ e2.messages := by
  cases e1
  cases e2
  simp [VError.merge, VError.messages]

theorem VError.isEmptyErr_eq_false (e : VError) :
    e.isEmptyErr = false ↔ (e.messages ≠ [] ∨ e.children ≠ []) := by
  cases e with
  | mk m c =>
    simp only [VError.isEmptyErr, VError.messages, VError.children]
    cases m <;> cases c <;> simp [List.isEmpty]

theorem VError.merge_notEmpty (e1 e2 : VError) (h : e2.isEmptyErr = false) :
    (e1.merge e2).isEmptyErr = false := by
  rw [VError.isEmptyErr_eq_false] at h ⊢
  cases e1 with
  | mk m1 c1 =>
    cases e2 with
    | mk m2 c2 =>
      rw [VError.merge]
      simp only [VError.messages, VError.children] at h ⊢
      rcases h with h | h
      · left
        intro hc
        exact h (List.append_eq_nil.mp hc).2
      · right
        intro hc
        rcases List.append_eq_nil.mp hc with ⟨ha, hb⟩
        cases hc1 : c1 with
        | nil =>
          subst hc1
          rw [List.filter_eq_nil_iff] at hb
          cases hc2 : c2 with
          | nil => exact h hc2
          | cons q qs =>
            refine absurd (hb q (by rw [hc2]; exact List.mem_cons_self q qs)) ?_
            simp [List.lookup]
        | cons p ps =>
          rw [hc1] at ha
          simp [List.attach] at ha

theorem mergeOpt_messages (err : Option VError) (e : VError) :
    (mergeOpt err e).messages = accMessages err ++ e.messages := by
  cases err with
  | none => simp [mergeOpt, accMessages]
  | some a => simp [mergeOpt, accMessages, VError.merge_messages]

theorem mergeOpt_notEmpty (err : Option VError) (e : VError)
    (h : e.isEmptyErr = false) : (mergeOpt err e).isEmptyErr = false := by
  cases err with
  | none => exact h
  | some a => exact VError.merge_notEmpty a e h

theorem loop_ok_step {T : Type} (obj : T) (kw : Kwargs) (v : Validator T)
    (rest : List (Validator T)) (err : Option VError)
    (h : callValidator v obj kw = .ok) :
    validateLoop obj kw (v :: rest) err = validateLoop obj kw rest err := by
  rw [validateLoop, h]

theorem loop_vError_step {T : Type} (obj : T) (kw : Kwargs) (v : Validator T)
    (rest : List (Validator T)) (err : Option VError) (e : VError)
    (h : callValidator v obj kw = .vError e) :
    validateLoop obj kw (v :: rest) err =
      validateLoop obj kw rest (some (mergeOpt err e)) := by
  rw [validateLoop, h]

theorem loop_discard_step {T : Type} (obj : T) (kw : Kwargs) (v : Validator T)
    (rest : List (Validator T)) (err : Option VError) (fields : List String)
    (e : VError) (h : callValidator v obj kw = .discard fields e) :
    validateLoop obj kw (v :: rest) err =
      validateLoop obj kw
        (rest.filter (fun w => !fields.any (fun f => w.dependencies.contains f)))
        (some (mergeOpt err e)) := by
  rw [validateLoop, h]

theorem loop_otherExc_step {T : Type} (obj : T) (kw : Kwargs) (v : Validator T)
    (rest : List (Validator T)) (err : Option VError) (msg : String)
    (h : callValidator v obj kw = .otherExc msg) :
    validateLoop obj kw (v :: rest) err =
      validateLoop obj kw rest (some (mergeOpt err (VError.mk [msg] []))) := by
  rw [validateLoop, h]

theorem loop_nil_none {T : Type} (obj : T) (kw : Kwargs) :
    validateLoop obj kw ([] : List (Validator T)) none = .ok obj := by
  rw [validateLoop.eq_def]

theorem loop_nil_some {T : Type} (obj : T) (kw : Kwargs) (e : VError) :
    validateLoop obj kw ([] : List (Validator T)) (some e) = .raised e := by
  rw [validateLoop.eq_def]

theorem any_key_iff_lookup (kw : Kwargs) (k : String) :
    kw.any (fun p => p.1 == k) = true ↔ ∃ val, kw.lookup k = some val := by
  induction kw with
  | nil => simp [List.lookup]
  | cons p t ih =>
    obtain ⟨a, b⟩ := p
    by_cases hk : k = a
    · subst hk
      constructor
      · intro _
        exact ⟨b, by simp [List.lookup]⟩
      · intro _
        simp
    · have hba : (a == k) = false := by simp [Ne.symm hk]
      have hkb : (k == a) = false := by simp [hk]
      simp only [List.any_cons, hba, Bool.false_or]
      rw [show List.lookup k ((a, b) :: t) = List.lookup k t from by
        simp [List.lookup, hkb]]
      exact ih

theorem filteredKwargs_mem (ps : List String) (kw : Kwargs) :
    ∀ q ∈ filteredKwargs ps kw, q.1 ∈ ps ∧ kw.lookup q.1 = some q.2 := by
  intro q hq
  simp only [filteredKwargs, List.mem_filterMap] at hq
  obtain ⟨k, hk, hsome⟩ := hq
  cases hkw : kw.lookup k with
  | none => rw [hkw] at hsome; simp at hsome
  | some val =>
    rw [hkw] at hsome
    simp only [Option.map_some', Option.some.injEq] at hsome
    subst hsome
    exact ⟨hk, hkw⟩

theorem filteredKwargs_keys (ps : List String) (kw : Kwargs)
    (h : ∀ k ∈ ps, ∃ val, kw.lookup k = some val) :
    (filteredKwargs ps kw).map Prod.fst = ps := by
  induction ps with
  | nil => rfl
  | cons k t ih =>
    obtain ⟨val, hval⟩ := h k (List.mem_cons_self k t)
    simp only [filteredKwargs, List.filterMap_cons, hval, Option.map_some']
    simp only [List.map_cons, List.cons.injEq, true_and]
    exact ih (fun k' hk' => h k' (List.mem_cons_of_mem _ hk'))

/-- C3: in `validate`, if kwargs were supplied and the validator's
`params` differ from `kwargs.keys()`, the engine asserts every param is
present in kwargs (a failing assertion is fatal) and calls the
validator with exactly the entries of kwargs whose keys are in
`params`; if `params` equals the key set, or no kwargs were supplied,
the validator is called with all of kwargs. -/
theorem c3_kwargs_dispatch {T : Type} (v : Validator T) (obj : T) (kw : Kwargs) :
    (kw.isEmpty = false → sameKeys v.params kw = false →
      (v.params.all (fun k => kw.any (fun p => p.1 == k)) = true →
        callValidator v obj kw = v.validate obj (filteredKwargs v.params kw) ∧
        (∀ q ∈ filteredKwargs v.params kw,
          q.1 ∈ v.params ∧ kw.lookup q.1 = some q.2) ∧
        (filteredKwargs v.params kw).map Prod.fst = v.params) ∧
      (v.params.all (fun k => kw.any (fun p => p.1 == k)) = false →
        callValidator v obj kw = .assertFail)) ∧
    (sameKeys v.params kw = true → callValidator v obj kw = v.validate obj kw) ∧
    (kw = [] → callValidator v obj kw = v.validate obj kw) := by
  refine ⟨fun hne hkeys => ⟨fun hall => ⟨?_, filteredKwargs_mem _ _, ?_⟩, fun hnall => ?_⟩,
    fun hsame => ?_, fun hnil => ?_⟩
  · simp [callValidator, hne, hkeys, hall]
  · refine filteredKwargs_keys _ _ (fun k hk => ?_)
    rw [List.all_eq_true] at hall
    exact (any_key_iff_lookup kw k).mp (hall k hk)
  · simp [callValidator, hne, hkeys, hnall]
  · simp [callValidator, hsame]
  · subst hnil
    simp [callValidator]

/-- C4: `get_validators` returns the type's own validators first, then
each mro ancestor's validators in mro order, then — when the type has a
model-alias origin — the origin's validators computed by the same rule,
appended after all direct results. -/
theorem c4_get_validators_order (env : TypeEnv) (reg : Nat → List Nat)
    (fuel tp : Nat) (anc : List Nat) (h : env.mro tp = some (tp :: anc)) :
    (env.modelOrigin tp = none →
      get_validators env reg (fuel + 1) tp =
        some (reg tp ++ (anc.map reg).flatten)) ∧
    (∀ origin vs, env.modelOrigin tp = some origin →
      get_validators env reg fuel origin = some vs →
      get_validators env reg (fuel + 1) tp =
        some (reg tp ++ (anc.map reg).flatten ++ vs)) := by
  constructor
  · intro horig
    simp [get_validators, h, horig]
  · intro origin vs horig hrec
    simp [get_validators, h, horig, hrec]

/-- C7 (amended): calling `_register` a second time raises the fatal
`RuntimeError` and leaves the dependencies, the registration flag and
the registry unchanged, but the `owner` attribute is reassigned to the
new argument before the error is raised. -/
theorem c7_register_twice (deps : Nat → List String) (params : List String)
    (s : VRegState) (reg : Nat → List Nat) (vid owner : Nat)
    (h : s.registered = true) :
    (registerValidator deps params s reg vid owner).2.2 = true ∧
    (registerValidator deps params s reg vid owner).1 =
      { s with owner := some owner } ∧
    (registerValidator deps params s reg vid owner).2.1 = reg := by
  simp [registerValidator, h]

def depsA : Nat → List String := fun _ => []

def regA : Nat → List Nat := fun _ => []

def vState0 : VRegState := { owner := none, registered := false, dependencies := [] }

/-- C7 counterexample: after a successful registration with owner `0`, a
second `_register` with owner `1` raises — but the validator's owner
has been overwritten to `1`, so the failed second registration does
not leave the owner unchanged. -/
theorem c7_owner_overwritten_cex :
    (registerValidator depsA [] vState0 regA 0 0).1.owner = some 0 ∧
    (registerValidator depsA []
      (registerValidator depsA [] vState0 regA 0 0).1 regA 0 1).2.2 = true ∧
    (registerValidator depsA []
      (registerValidator depsA [] vState0 regA 0 0).1 regA 0 1).1.owner = some 1 :=
  ⟨rfl, rfl, rfl⟩

/-- C7 witness: the amended theorem applied to a concrete
already-registered state. -/
theorem c7_register_twice_witness :
    (registerValidator depsA []
      { owner := some 0, registered := true, dependencies := [] } regA 0 1).2.2 = true ∧
    (registerValidator depsA []
      { owner := some 0, registered := true, dependencies := [] } regA 0 1).1 =
      { owner := some 1, registered := true, dependencies := [] } ∧
    (registerValidator depsA []
      { owner := some 0, registered := true, dependencies := [] } regA 0 1).2.1 = regA :=
  c7_register_twice depsA []
    { owner := some 0, registered := true, dependencies := [] } regA 0 1 rfl

/-- C9: a check function with zero parameters, or with a
variadic-keyword or variadic-positional parameter, is rejected at
`Validator` construction with a `TypeError`, before any instance is
validated. -/
theorem c9_construction_rejects {T : Type} (f : PyFunc T) (field : Option String)
    (dc : Option (List String)) (aliasOf : String → Option String)
    (ps : List PyParam) (hsig : f.sig = some ps)
    (hbad : ps = [] ∨ ps.any (fun p => p.kind == ParamKind.varKeyword) = true ∨
      ps.any (fun p => p.kind == ParamKind.varPositional) = true) :
    ∃ msg, mkValidator f field dc aliasOf = .error msg := by
  rcases hbad with h | h | h
  · refine ⟨"Validator must have at least one parameter", ?_⟩
    simp [mkValidator, hsig, h]
  · by_cases he : ps.isEmpty = true
    · refine ⟨"Validator must have at least one parameter", ?_⟩
      simp [mkValidator, hsig, he]
    · rw [Bool.not_eq_true] at he
      refine ⟨"Validator cannot have variadic keyword parameter", ?_⟩
      simp [mkValidator, hsig, he, h]
  · by_cases he : ps.isEmpty = true
    · refine ⟨"Validator must have at least one parameter", ?_⟩
      simp [mkValidator, hsig, he]
    · rw [Bool.not_eq_true] at he
      by_cases hk : ps.any (fun p => p.kind == ParamKind.varKeyword) = true
      · refine ⟨"Validator cannot have variadic keyword parameter", ?_⟩
        simp [mkValidator, hsig, he, hk]
      · rw [Bool.not_eq_true] at hk
        refine ⟨"Validator cannot have variadic positional parameter", ?_⟩
        simp [mkValidator, hsig, he, hk, h]

/-- C10: a check function whose signature cannot be introspected is
accepted with an empty declared-parameter set, and at dispatch time the
validator is always called with the instance alone. -/
theorem c10_unintrospectable {T : Type} (f : PyFunc T) (field : Option String)
    (dc : Option (List String)) (aliasOf : String → Option String)
    (h : f.sig = none) :
    ∃ v, mkValidator f field dc aliasOf = .ok v ∧ v.params = [] ∧
      ∀ (obj : T) (kw : Kwargs), callValidator v obj kw = v.validate obj [] := by
  simp only [mkValidator, h]
  refine ⟨_, rfl, rfl, ?_⟩
  intro obj kw
  cases kw with
  | nil => simp [callValidator]
  | cons p t => simp [callValidator, sameKeys, filteredKwargs]

def pSelf : PyParam := { name := "self", kind := ParamKind.positionalOrKeyword }

def pA : PyParam := { name := "a", kind := ParamKind.keywordOnly }

def fDispatch : PyFunc Nat :=
  { sig := some [pSelf, pA], isGen := false,
    call := fun _ kw => .vError (VError.mk [toString kw.length] []),
    yields := fun _ _ => [] }

def vDispatch : Validator Nat :=
  { func := fDispatch, field := none, discard := none, params := ["a"],
    dependencies := ["a"], validate := fDispatch.call }

/-- C3 witness: with kwargs `{a: 1, b: 2}` and `params = {a}` (a strict
subset), the validator is called with the filtered kwargs only. -/
theorem c3_kwargs_dispatch_witness :
    callValidator vDispatch 0 [("a", "1"), ("b", "2")] =
      vDispatch.validate 0 (filteredKwargs vDispatch.params [("a", "1"), ("b", "2")]) :=
  ((((c3_kwargs_dispatch vDispatch 0 [("a", "1"), ("b", "2")]).1) rfl rfl).1 rfl).1

def envA : TypeEnv :=
  { mro := fun t => if t = 0 then some [0, 1] else if t = 1 then some [1] else some [2],
    modelOrigin := fun t => if t = 0 then some 2 else none }

def regB : Nat → List Nat :=
  fun t => if t = 0 then [10] else if t = 1 then [11] else [12]

/-- C4 witness: type `0` has mro `[0, 1]` and model origin `2`; its
validators are its own, then ancestor `1`'s, then origin `2`'s. -/
theorem c4_get_validators_order_witness :
    get_validators envA regB 2 0 = some (regB 0 ++ ([1].map regB).flatten ++ [12]) :=
  (c4_get_validators_order envA regB 1 0 [1] rfl).2 2 [12] rfl rfl

def fVarKw : PyFunc Unit :=
  { sig := some [pSelf, { name := "kw", kind := ParamKind.varKeyword }],
    isGen := false, call := fun _ _ => .ok, yields := fun _ _ => [] }

/-- C9 witness: a check function declaring a variadic keyword parameter
is rejected at construction. -/
theorem c9_construction_rejects_witness :
    ∃ msg, mkValidator fVarKw none none (fun _ => none) = .error msg :=
  c9_construction_rejects fVarKw none none (fun _ => none)
    [pSelf, { name := "kw", kind := ParamKind.varKeyword }] rfl
    (Or.inr (Or.inl (by decide)))

def fNoSig : PyFunc Unit :=
  { sig := none, isGen := false, call := fun _ _ => .ok, yields := fun _ _ => [] }

/-- C10 witness: an un-introspectable check function is accepted with
empty params and always dispatched with the instance alone. -/
theorem c10_unintrospectable_witness :
    ∃ v, mkValidator fNoSig none none (fun _ => none) = .ok v ∧ v.params = [] ∧
      ∀ (obj : Unit) (kw : Kwargs), callValidator v obj kw = v.validate obj [] :=
  c10_unintrospectable fNoSig none none (fun _ => none) rfl

theorem loop_nonTrivial_step {T : Type} (obj : T) (kw : Kwargs) (v : Validator T)
    (rest : List (Validator T)) (err : Option VError)
    (h : callValidator v obj kw = .nonTrivial) :
    validateLoop obj kw (v :: rest) err = .nonTrivial v := by
  rw [validateLoop, h]

theorem loop_assertFail_step {T : Type} (obj : T) (kw : Kwargs) (v : Validator T)
    (rest : List (Validator T)) (err : Option VError)
    (h : callValidator v obj kw = .assertFail) :
    validateLoop obj kw (v :: rest) err = .assertFail := by
  rw [validateLoop, h]

theorem loop_all_vError {T : Type} (obj : T) (kw : Kwargs) :
    ∀ (vs : List (Validator T)) (e0 : VError),
      (∀ w ∈ vs, ∃ ew, callValidator w obj kw = .vError ew) →
      ∃ final, validateLoop obj kw vs (some e0) = .raised final ∧
        (∃ t, final.messages = e0.messages ++ t) ∧
        (∀ w ∈ vs, ∀ ew, callValidator w obj kw = .vError ew →
          ∀ m ∈ ew.messages, m ∈ final.messages) := by
  intro vs
  induction vs with
  | nil =>
    intro e0 _
    exact ⟨e0, loop_nil_some obj kw e0, ⟨[], by simp⟩, by simp⟩
  | cons v rest ih =>
    intro e0 hall
    obtain ⟨ev, hv⟩ := hall v (List.mem_cons_self v rest)
    obtain ⟨final, hfin, ⟨t, ht⟩, hmem⟩ := ih (mergeOpt (some e0) ev)
      (fun w hw => hall w (List.mem_cons_of_mem _ hw))
    refine ⟨final, ?_, ⟨ev.messages ++ t, ?_⟩, ?_⟩
    · rw [loop_vError_step obj kw v rest (some e0) ev hv]
      exact hfin
    · rw [ht]
      simp [mergeOpt, VError.merge_messages]
    · intro w hw ew hew m hm
      rcases List.mem_cons.mp hw with hw | hw
      · subst hw
        injection hv.symm.trans hew with h2
        subst h2
        rw [ht]
        simp only [mergeOpt, VError.merge_messages, List.mem_append]
        exact Or.inl (Or.inr hm)
      · exact hmem w hw ew hew m hm

theorem loop_all_ok {T : Type} (obj : T) (kw : Kwargs) :
    ∀ vs : List (Validator T), (∀ v ∈ vs, callValidator v obj kw = .ok) →
      validateLoop obj kw vs none = .ok obj := by
  intro vs
  induction vs with
  | nil => intro _; exact loop_nil_none obj kw
  | cons v rest ih =>
    intro h
    rw [loop_ok_step obj kw v rest none (h v (List.mem_cons_self v rest))]
    exact ih (fun w hw => h w (List.mem_cons_of_mem _ hw))

theorem loop_ok_eq {T : Type} (obj : T) (kw : Kwargs) :
    ∀ (n : Nat) (vs : List (Validator T)), vs.length ≤ n →
      ∀ (err : Option VError) (x : T), validateLoop obj kw vs err = .ok x →
        x = obj := by
  intro n
  induction n with
  | zero =>
    intro vs hlen err x h
    cases vs with
    | nil =>
      cases err with
      | none =>
        rw [loop_nil_none] at h
        injection h with h2
        exact h2.symm
      | some e =>
        rw [loop_nil_some] at h
        exact EngineResult.noConfusion h
    | cons v rest => exact absurd hlen (by simp)
  | succ n ih =>
    intro vs hlen err x h
    cases vs with
    | nil =>
      cases err with
      | none =>
        rw [loop_nil_none] at h
        injection h with h2
        exact h2.symm
      | some e =>
        rw [loop_nil_some] at h
        exact EngineResult.noConfusion h
    | cons v rest =>
      have hrest : rest.length ≤ n := by
        simpa using Nat.succ_le_succ_iff.mp (by simpa using hlen)
      cases hc : callValidator v obj kw with
      | ok =>
        rw [loop_ok_step obj kw v rest err hc] at h
        exact ih rest hrest err x h
      | vError e =>
        rw [loop_vError_step obj kw v rest err e hc] at h
        exact ih rest hrest _ x h
      | discard fields e =>
        rw [loop_discard_step obj kw v rest err fields e hc] at h
        exact ih _ (le_trans (List.length_filter_le _ _) hrest) _ x h
      | nonTrivial =>
        rw [loop_nonTrivial_step obj kw v rest err hc] at h
        exact EngineResult.noConfusion h
      | assertFail =>
        rw [loop_assertFail_step obj kw v rest err hc] at h
        exact EngineResult.noConfusion h
      | otherExc msg =>
        rw [loop_otherExc_step obj kw v rest err msg hc] at h
        exact ih rest hrest _ x h

theorem loop_raised_notEmpty {T : Type} (obj : T) (kw : Kwargs) :
    ∀ (n : Nat) (vs : List (Validator T)), vs.length ≤ n →
      (∀ v ∈ vs, ∀ e,
        (callValidator v obj kw = .vError e → e.isEmptyErr = false) ∧
        (∀ fs, callValidator v obj kw = .discard fs e → e.isEmptyErr = false)) →
      ∀ (err : Option VError), (∀ x, err = some x → x.isEmptyErr = false) →
        ∀ e, validateLoop obj kw vs err = .raised e → e.isEmptyErr = false := by
  intro n
  induction n with
  | zero =>
    intro vs hlen _ err herr e h
    cases vs with
    | nil =>
      cases err with
      | none => rw [loop_nil_none] at h; exact EngineResult.noConfusion h
      | some x =>
        rw [loop_nil_some] at h
        injection h with h2
        exact h2 ▸ herr x rfl
    | cons v rest => exact absurd hlen (by simp)
  | succ n ih =>
    intro vs hlen hsur err herr e h
    cases vs with
    | nil =>
      cases err with
      | none => rw [loop_nil_none] at h; exact EngineResult.noConfusion h
      | some x =>
        rw [loop_nil_some] at h
        injection h with h2
        exact h2 ▸ herr x rfl
    | cons v rest =>
      have hrest : rest.length ≤ n := by
        simpa using Nat.succ_le_succ_iff.mp (by simpa using hlen)
      have hsurRest : ∀ w ∈ rest, ∀ e,
          (callValidator w obj kw = .vError e → e.isEmptyErr = false) ∧
          (∀ fs, callValidator w obj kw = .discard fs e → e.isEmptyErr = false) :=
        fun w hw => hsur w (List.mem_cons_of_mem _ hw)
      cases hc : callValidator v obj kw with
      | ok =>
        rw [loop_ok_step obj kw v rest err hc] at h
        exact ih rest hrest hsurRest err herr e h
      | vError e1 =>
        rw [loop_vError_step obj kw v rest err e1 hc] at h
        refine ih rest hrest hsurRest _ ?_ e h
        intro x hx
        injection hx with hx
        subst hx
        exact mergeOpt_notEmpty err e1
          ((hsur v (List.mem_cons_self v rest) e1).1 hc)
      | discard fields e1 =>
        rw [loop_discard_step obj kw v rest err fields e1 hc] at h
        refine ih _ (le_trans (List.length_filter_le _ _) hrest)
          (fun w hw => hsurRest w (List.mem_of_mem_filter hw)) _ ?_ e h
        intro x hx
        injection hx with hx
        subst hx
        exact mergeOpt_notEmpty err e1
          ((hsur v (List.mem_cons_self v rest) e1).2 fields hc)
      | nonTrivial =>
        rw [loop_nonTrivial_step obj kw v rest err hc] at h
        exact EngineResult.noConfusion h
      | assertFail =>
        rw [loop_assertFail_step obj kw v rest err hc] at h
        exact EngineResult.noConfusion h
      | otherExc msg =>
        rw [loop_otherExc_step obj kw v rest err msg hc] at h
        refine ih rest hrest hsurRest _ ?_ e h
        intro x hx
        injection hx with hx
        subst hx
        exact mergeOpt_notEmpty err (VError.mk [msg] []) rfl

theorem merge_childless (m1 m2 : List String) :
    (VError.mk m1 []).merge (VError.mk m2 []) = VError.mk (m1 ++ m2) [] := by
  rw [VError.merge]
  simp

def fStub : PyFunc Unit :=
  { sig := some [pSelf], isGen := false, call := fun _ _ => .ok,
    yields := fun _ _ => [] }

def vDiscardA : Validator Unit :=
  { func := fStub, field := none, discard := some ["a"], params := [],
    dependencies := [],
    validate := fun _ _ => .discard ["a"] (VError.mk ["dA"] []) }

def vDiscardB : Validator Unit :=
  { func := fStub, field := none, discard := some ["b"], params := [],
    dependencies := [],
    validate := fun _ _ => .discard ["b"] (VError.mk ["bad"] []) }

def vDepA : Validator Unit :=
  { func := fStub, field := none, discard := none, params := [],
    dependencies := ["a"],
    validate := fun _ _ => .vError (VError.mk ["depA"] []) }

def vNoDep : Validator Unit :=
  { func := fStub, field := none, discard := none, params := [],
    dependencies := ["c"],
    validate := fun _ _ => .vError (VError.mk ["noDep"] []) }

/-- C1: the program fails the claim at the failing input
`[vDiscardA, vDiscardB, vDepA]` (no kwargs).  `vDiscardA` discards
`{a}`; `vDiscardB`, with no dependencies, survives and discards `{b}`,
rebinding the late-bound `discarded` that every pending filter reads;
`vDepA`, depending on the discarded field `a`, is then tested against
`{b}` only, executes, and its failure appears in the raised error —
whereas under the claimed (and spec-described) cumulative pruning,
embedded by `validateLoop`, `vDepA` stays excluded by the `{a}`
filter. -/
theorem c1_late_bound_discard_bug :
    validateLoopLateBind () [] [vDiscardA, vDiscardB, vDepA] none none =
      .raised (VError.mk ["dA", "bad", "depA"] []) ∧
    validateLoop () [] [vDiscardA, vDiscardB, vDepA] none =
      .raised (VError.mk ["dA", "bad"] []) := by
  constructor
  · simp [validateLoopLateBind, discardedHits, callValidator, vDiscardA,
      vDiscardB, vDepA, mergeOpt, merge_childless]
  · rw [loop_discard_step () [] vDiscardA [vDiscardB, vDepA] none ["a"]
      (VError.mk ["dA"] []) rfl,
      show ([vDiscardB, vDepA].filter
          (fun w => !(["a"].any (fun f => w.dependencies.contains f)))) =
        [vDiscardB] from rfl,
      loop_discard_step () [] vDiscardB [] (some (mergeOpt none (VError.mk ["dA"] [])))
        ["b"] (VError.mk ["bad"] []) rfl,
      show (([] : List (Validator Unit)).filter
          (fun w => !(["b"].any (fun f => w.dependencies.contains f)))) =
        [] from rfl,
      loop_nil_some]
    simp [mergeOpt, merge_childless]

/-- C5 (amended): `validate` either raises or returns its instance
unchanged — on exhaustion with no surfaced failure it returns the
original instance; a raised error is the merge of surfaced failures and
is non-empty provided every surfaced failure error is non-empty (a
check that itself raises an empty `ValidationError` makes the engine
raise an empty error). -/
theorem c5_validate_result {T : Type} (obj : T) (vs : List (Validator T))
    (kw : Kwargs) :
    ((∀ v ∈ vs, callValidator v obj kw = .ok) →
      validateEngine obj vs kw = .ok obj) ∧
    (∀ x, validateEngine obj vs kw = .ok x → x = obj) ∧
    ((∀ v ∈ vs, ∀ e,
        (callValidator v obj kw = .vError e → e.isEmptyErr = false) ∧
        (∀ fs, callValidator v obj kw = .discard fs e → e.isEmptyErr = false)) →
      ∀ e, validateEngine obj vs kw = .raised e → e.isEmptyErr = false) :=
  ⟨fun h => loop_all_ok obj kw vs h,
   fun x h => loop_ok_eq obj kw vs.length vs le_rfl none x h,
   fun hsur e h => loop_raised_notEmpty obj kw vs.length vs le_rfl hsur none
     (fun _ hx => Option.noConfusion hx) e h⟩

def fEmptyRaise : PyFunc Unit :=
  { sig := some [pSelf], isGen := false,
    call := fun _ _ => .vError (VError.mk [] []), yields := fun _ _ => [] }

def vEmptyRaise : Validator Unit :=
  { func := fEmptyRaise, field := none, discard := none, params := [],
    dependencies := [], validate := fEmptyRaise.call }

/-- C5 counterexample: a check that raises an empty `ValidationError`
makes `validate` raise an error with no messages and no children, so an
empty error can be the raised error. -/
theorem c5_empty_error_raised_cex :
    validateEngine () [vEmptyRaise] [] = .raised (VError.mk [] []) ∧
    (VError.mk [] []).isEmptyErr = true := by
  constructor
  · show validateLoop () [] [vEmptyRaise] none = _
    rw [loop_vError_step () [] vEmptyRaise [] none (VError.mk [] []) rfl,
      loop_nil_some]
    rfl
  · rfl

def vOkStub : Validator Unit :=
  { func := fStub, field := none, discard := none, params := [],
    dependencies := [], validate := fun _ _ => .ok }

/-- C5 witness: a sequence with one always-passing validator returns the
original instance. -/
theorem c5_validate_result_witness : validateEngine () [vOkStub] [] = .ok () :=
  (c5_validate_result () [vOkStub] []).1
    (fun v hv => by
      rw [List.mem_singleton] at hv
      subst hv
      rfl)

/-- C8: any exception from a validator that is not a `ValidationError`,
`Discard`, `NonTrivialDependency` or assertion failure is downgraded to
a flat single-message `ValidationError`, merged, and iteration
continues with the next validator, whose findings still reach the final
merged error. -/
theorem c8_exception_downgrade {T : Type} (obj : T) (kw : Kwargs)
    (v : Validator T) (rest : List (Validator T)) (err : Option VError)
    (msg : String) (h : callValidator v obj kw = .otherExc msg) :
    validateLoop obj kw (v :: rest) err =
      validateLoop obj kw rest (some (mergeOpt err (VError.mk [msg] []))) ∧
    (mergeOpt err (VError.mk [msg] [])).messages = accMessages err ++ [msg] ∧
    ((∀ w ∈ rest, ∃ ew, callValidator w obj kw = .vError ew) →
      ∃ final, validateLoop obj kw (v :: rest) err = .raised final ∧
        msg ∈ final.messages ∧
        (∀ w ∈ rest, ∀ ew, callValidator w obj kw = .vError ew →
          ∀ m ∈ ew.messages, m ∈ final.messages)) := by
  refine ⟨loop_otherExc_step obj kw v rest err msg h, ?_, ?_⟩
  · rw [mergeOpt_messages]
    rfl
  · intro hall
    obtain ⟨final, hfin, ⟨t, ht⟩, hmem⟩ :=
      loop_all_vError obj kw rest (mergeOpt err (VError.mk [msg] [])) hall
    refine ⟨final, ?_, ?_, hmem⟩
    · rw [loop_otherExc_step obj kw v rest err msg h]
      exact hfin
    · rw [ht, mergeOpt_messages]
      simp [VError.messages]

def vBoom : Validator Unit :=
  { func := fStub, field := none, discard := none, params := [],
    dependencies := [], validate := fun _ _ => .otherExc "boom" }

/-- C8 witness: a validator raising an arbitrary exception is downgraded
to a flat error and the loop moves on to the remaining validators. -/
theorem c8_exception_downgrade_witness :
    validateLoop () [] [vBoom, vNoDep] none =
      validateLoop () [] [vNoDep] (some (mergeOpt none (VError.mk ["boom"] []))) :=
  (c8_exception_downgrade () [] vBoom [vNoDep] none "boom" rfl).1

/-- C2: the target-field wrapper turns any `ValidationError` raised by
the wrapped check into a new error with no flat messages and exactly
one nested child keyed by the public alias of the target field (from
the owner field metadata), whose value is the original error; the alias
is resolved on the first failure and cached, and on a non-failing
outcome nothing is looked up and the cache is untouched. -/
theorem c2_field_rekey {T : Type} (aliasOf : String → Option String)
    (fn a : String) (inner : T → Kwargs → Outcome) (h : aliasOf fn = some a) :
    (∀ (obj : T) (kw : Kwargs) (err : VError), inner obj kw = .vError err →
      fieldValidateStep aliasOf fn inner none obj kw =
        (.vError (VError.mk [] [(a, err)]), some a) ∧
      fieldValidateStep aliasOf fn inner (some a) obj kw =
        (.vError (VError.mk [] [(a, err)]), some a)) ∧
    (∀ (obj : T) (kw : Kwargs) (cache : Option String),
      (∀ err, inner obj kw ≠ .vError err) →
      fieldValidateStep aliasOf fn inner cache obj kw = (inner obj kw, cache)) := by
  constructor
  · intro obj kw err hin
    constructor
    · simp [fieldValidateStep, hin, h]
    · simp [fieldValidateStep, hin]
  · intro obj kw cache hne
    cases hr : inner obj kw with
    | ok => simp [fieldValidateStep, hr]
    | vError e => exact absurd hr (hne e)
    | discard fs e => simp [fieldValidateStep, hr]
    | nonTrivial => simp [fieldValidateStep, hr]
    | assertFail => simp [fieldValidateStep, hr]
    | otherExc m => simp [fieldValidateStep, hr]

def aliasX : String → Option String := fun n => if n = "x" then some "X" else none

def innerBad : Unit → Kwargs → Outcome := fun _ _ => .vError (VError.mk ["bad"] [])

/-- C2 witness: a check failing with message "bad" on field `x` with
alias `X` surfaces an error whose sole child key is `X`, containing the
original error, and caches the alias. -/
theorem c2_field_rekey_witness :
    fieldValidateStep aliasX "x" innerBad none () [] =
      (.vError (VError.mk [] [("X", VError.mk ["bad"] [])]), some "X") :=
  (((c2_field_rekey aliasX "x" "X" innerBad rfl).1 () []
    (VError.mk ["bad"] []) rfl)).1

theorem mkValidator_ok_inv {T : Type} (f : PyFunc T) (field : Option String)
    (dc : Option (List String)) (aliasOf : String → Option String)
    (v : Validator T) (hok : mkValidator f field dc aliasOf = .ok v) :
    v.discard = (if field.isSome && dc.isNone then some field.toList else dc) ∧
    v.validate =
      builtPipeline f field
        (if field.isSome && dc.isNone then some field.toList else dc) aliasOf := by
  simp only [mkValidator] at hok
  split at hok
  · exact Except.noConfusion hok
  · injection hok with hv
    subst hv
    exact ⟨rfl, rfl⟩

theorem builtPipeline_active {T : Type} (f : PyFunc T) (field : Option String)
    (aliasOf : String → Option String) (ds : List String)
    (hne : ds.isEmpty = false) :
    builtPipeline f field (some ds) aliasOf =
      discardLayer ds (builtInner f field aliasOf) := by
  simp [builtPipeline, hne]

/-- C6 (amended): the wrapping layers compose outward in the order
generator-conversion, then target-field re-keying, then discard
conversion; the discard set defaults to the singleton target field when
a target field is given and no explicit discard set is supplied, and an
explicitly given set is kept verbatim; when the resulting discard set
is nonempty (an explicitly supplied empty collection is falsy and
activates no discard layer), a failing check surfaces as a `Discard`
carrying the already-field-keyed error and the discarded field
names. -/
theorem c6_wrapping_order {T : Type} (f : PyFunc T) (field : Option String)
    (dc : Option (List String)) (aliasOf : String → Option String)
    (v : Validator T) (hok : mkValidator f field dc aliasOf = .ok v) :
    (field.isSome = true → dc = none → v.discard = some field.toList) ∧
    (dc.isSome = true → v.discard = dc) ∧
    (∀ ds, v.discard = some ds → ds ≠ [] →
      v.validate = discardLayer ds (builtInner f field aliasOf)) ∧
    (∀ fn a ds, field = some fn → aliasOf fn = some a → v.discard = some ds →
      ds ≠ [] → ∀ (obj : T) (kw : Kwargs) (e : VError),
      (if f.isGen then yieldToRaise f.yields else f.call) obj kw = .vError e →
      v.validate obj kw = .discard ds (VError.mk [] [(a, e)])) := by
  obtain ⟨hd, hv⟩ := mkValidator_ok_inv f field dc aliasOf v hok
  have hdisc : ∀ ds, v.discard = some ds → ds ≠ [] →
      v.validate = discardLayer ds (builtInner f field aliasOf) := by
    intro ds hds hne
    rw [hd] at hds
    rw [hv, hds]
    refine builtPipeline_active f field aliasOf ds ?_
    cases ds with
    | nil => exact absurd rfl hne
    | cons a t => rfl
  refine ⟨?_, ?_, hdisc, ?_⟩
  · intro hf hdc
    subst hdc
    rw [hd]
    simp [hf]
  · intro hdc
    cases dc with
    | none => exact absurd hdc (by simp)
    | some l =>
      rw [hd]
      simp
  · intro fn a ds hfn ha hds hne obj kw e hcall
    rw [hdisc ds hds hne]
    subst hfn
    simp only [discardLayer, builtInner, fieldLayer, hcall, ha]

def fBad : PyFunc Unit :=
  { sig := some [pSelf], isGen := false,
    call := fun _ _ => .vError (VError.mk ["bad"] []), yields := fun _ _ => [] }

/-- C6 counterexample: with a target field and an explicitly given
discard set that is empty, the discard set counts as supplied, yet a
failing check surfaces as a plain field-keyed `ValidationError`, not as
a `Discard` signal — the empty collection is falsy and the discard
layer is not applied. -/
theorem c6_explicit_empty_discard_cex :
    (mkValidator fBad (some "x") (some ([] : List String)) aliasX).map
      (fun v => v.discard) = .ok (some []) ∧
    (mkValidator fBad (some "x") (some ([] : List String)) aliasX).map
      (fun v => v.validate () []) =
      .ok (.vError (VError.mk [] [("X", VError.mk ["bad"] [])])) ∧
    (mkValidator fBad (some "x") (some ([] : List String)) aliasX).map
      (fun v => match v.validate () [] with
        | .discard _ _ => true
        | _ => false) = .ok false :=
  ⟨rfl, rfl, rfl⟩

/-- C6 witness: with a target field `x` (alias `X`) and no explicit
discard set, the discard set defaults to `{x}` and a failing check
surfaces as a `Discard` carrying the field-keyed error. -/
theorem c6_wrapping_order_witness :
    ((mkValidator fBad (some "x") none aliasX).toOption.getD vOkStub).validate () [] =
      .discard ["x"] (VError.mk [] [("X", VError.mk ["bad"] [])]) :=
  (c6_wrapping_order fBad (some "x") none aliasX
      ((mkValidator fBad (some "x") none aliasX).toOption.getD vOkStub) rfl).2.2.2
    "x" "X" ["x"] rfl rfl rfl (by simp) () [] (VError.mk ["bad"] []) rfl
